import Mathlib

/-!
Verification development for the argument/path validation helpers of
`nlp_architect/utils/io.py`.

Python strings are modelled as `List Char` (`PyStr`), Python values that
reach the validators as `PyVal`, exceptions as `PyError`, and the
filesystem-dependent checks (`os.path.isfile`, `os.path.isdir`) as an
explicit record of predicates `FS`.  The path functions `posixpath.normpath`,
`posixpath.join`, `posixpath.dirname` and `posixpath.abspath` are embedded
by direct transcription of their CPython sources.
-/

namespace NlpIo

/-- A Python `str`, modelled as its list of characters. -/
abbrev PyStr := List Char

/-- Auxiliary form of Python's `str.split('/')`: the first piece paired with
the remaining pieces. -/
def splitOnSlashA : PyStr → PyStr × List PyStr
  | [] => ([], [])
  | c :: rest =>
    let r := splitOnSlashA rest
    if c = '/' then ([], r.1 :: r.2) else (c :: r.1, r.2)

/-- Python's `path.split('/')`. -/
def splitOnSlash (p : PyStr) : List PyStr :=
  (splitOnSlashA p).1 :: (splitOnSlashA p).2

/-- Python's `'/'.join(comps)`. -/
def joinSlash : List PyStr → PyStr
  | [] => []
  | [x] => x
  | x :: y :: rest => x ++ '/' :: joinSlash (y :: rest)

/-- Python's `s.lstrip('/')`. -/
def lstripSlash (p : PyStr) : PyStr := p.dropWhile (fun c => c = '/')

/-- Does the string start with `'/'`? (`path.startswith('/')`). -/
def isSlashHead (p : PyStr) : Bool := p.head? = some '/'

/-- The `initial_slashes` computation of `posixpath.normpath`: 0 when the
path is relative, 2 when it starts with exactly two slashes, otherwise 1. -/
def initSlashes (p : PyStr) : Nat :=
  if isSlashHead p then
    if isSlashHead (p.drop 1) && !(isSlashHead (p.drop 2)) then 2 else 1
  else 0

/-- One step of the component loop of `posixpath.normpath`: skip `''` and
`'.'`, append ordinary components (and `'..'` when it cannot be resolved),
otherwise pop the last component. -/
def normStep (islashes : Nat) (acc : List PyStr) (comp : PyStr) : List PyStr :=
  if comp = [] ∨ comp = ['.'] then acc
  else if comp ≠ ['.', '.'] ∨ (islashes = 0 ∧ acc = []) ∨ acc.getLast? = some ['.', '.'] then
    acc ++ [comp]
  else acc.dropLast

/-- `posixpath.normpath`, transcribed from CPython. -/
def normpath (p : PyStr) : PyStr :=
  if p = [] then ['.']
  else
    let k := initSlashes p
    let newComps := List.foldl (normStep k) [] (splitOnSlash p)
    let q := List.replicate k '/' ++ joinSlash newComps
    if q = [] then ['.'] else q

/-- Python exceptions raised by the validators. -/
inductive PyError where
  | typeError (msg : PyStr)
  | valueError (msg : PyStr)
  | assertionError
deriving DecidableEq

/-- `sanitize_path` from `nlp_architect/utils/io.py`:
`s_path = os.path.normpath('/' + path).lstrip('/')`, then
`assert len(s_path) < 255` (an `AssertionError` is modelled as `.error`). -/
def sanitize_path (p : PyStr) : Except PyError PyStr :=
  let s := lstripSlash (normpath ('/' :: p))
  if s.length < 255 then .ok s else .error .assertionError

/-- Python's `posixpath.isabs`. -/
def isabs (p : PyStr) : Bool := isSlashHead p

/-- Python's `posixpath.join` for two arguments. -/
def joinPath (a b : PyStr) : PyStr :=
  if isabs b then b
  else if a = [] ∨ a.getLast? = some '/' then a ++ b
  else a ++ '/' :: b

/-- Python's `posixpath.abspath` with an explicit current working
directory: `normpath(path)` if the path is absolute, else
`normpath(join(cwd, path))`. -/
def abspathStr (cwd p : PyStr) : PyStr :=
  if isabs p then normpath p else normpath (joinPath cwd p)

/-- Python's `posixpath.dirname`: everything up to the last `'/'`, with
trailing slashes stripped unless the head is all slashes. -/
def dirname (p : PyStr) : PyStr :=
  let head := (p.reverse.dropWhile (fun c => c ≠ '/')).reverse
  if head ≠ [] ∧ ¬ head.all (fun c => c = '/') then
    (head.reverse.dropWhile (fun c => c = '/')).reverse
  else head

/-- The runtime types relevant to the validators. -/
inductive PyType where
  | noneT | boolT | intT | strT | listT
deriving DecidableEq

/-- `t.__name__` for each modelled type. -/
def typeName : PyType → PyStr
  | .noneT => "NoneType".toList
  | .boolT => "bool".toList
  | .intT => "int".toList
  | .strT => "str".toList
  | .listT => "list".toList

/-- Python values that reach the validators. -/
inductive PyVal where
  | none
  | bool (b : Bool)
  | int (n : Int)
  | str (s : PyStr)
  | list (l : List PyVal)

/-- `type(v)`. -/
def typeOf : PyVal → PyType
  | .none => .noneT
  | .bool _ => .boolT
  | .int _ => .intT
  | .str _ => .strT
  | .list _ => .listT

/-- `isinstance(v, tuple_of_types)`: the runtime type is one of the accepted
types, where `bool` is a subclass of `int`. -/
def isinstance (v : PyVal) (ts : List PyType) : Bool :=
  ts.any (fun t => decide (typeOf v = t ∨ (typeOf v = PyType.boolT ∧ t = PyType.intT)))

/-- `arg_val is None`. -/
def isNone : PyVal → Bool
  | .none => true
  | _ => false

/-- `hasattr(v, '__len__')`: true for `str` and `list`. -/
def hasLen : PyVal → Bool
  | .str _ => true
  | .list _ => true
  | _ => false

/-- `len(v)` for the sized values. -/
def pyLen : PyVal → Nat
  | .str s => s.length
  | .list l => l.length
  | _ => 0

/-- The numeric value of a scalar, for range comparison. -/
def pyToInt : PyVal → Int
  | .int n => n
  | .bool b => if b then 1 else 0
  | _ => 0

/-- The quantity `num` that `validate` compares against the bounds:
`len(arg_val)` when the value has `__len__`, otherwise the value itself. -/
def magnitude (v : PyVal) : Int :=
  if hasLen v then (pyLen v : Int) else pyToInt v

/-- The second tuple element of a rule: a single type or a tuple of types. -/
inductive TypeSpec where
  | single (t : PyType)
  | tuple (ts : List PyType)

/-- `(arg[1],) if isinstance(arg[1], type) else arg[1]`. -/
def TypeSpec.toList : TypeSpec → List PyType
  | .single t => [t]
  | .tuple ts => ts

/-- One validation rule: `(arg, class)`, `(arg, class, min, max)` or
`(arg, class, min, max, name)`. -/
inductive Rule where
  | pair (val : PyVal) (types : TypeSpec)
  | quad (val : PyVal) (types : TypeSpec) (mn mx : Option Int)
  | quint (val : PyVal) (types : TypeSpec) (mn mx : Option Int) (name : PyStr)

def Rule.val : Rule → PyVal
  | .pair v _ => v
  | .quad v _ _ _ => v
  | .quint v _ _ _ _ => v

def Rule.typeSpec : Rule → TypeSpec
  | .pair _ t => t
  | .quad _ t _ _ => t
  | .quint _ t _ _ _ => t

/-- `some (min, max)` exactly when `len(arg) >= 4`. -/
def Rule.bounds : Rule → Option (Option Int × Option Int)
  | .pair _ _ => Option.none
  | .quad _ _ mn mx => some (mn, mx)
  | .quint _ _ mn mx _ => some (mn, mx)

/-- `'of ' + arg[4] if len(arg) == 5 else ''`. -/
def Rule.nameStr : Rule → PyStr
  | .quint _ _ _ _ nm => "of ".toList ++ nm
  | _ => []

/-- `str(n)` for an `int`. -/
def intStr (n : Int) : PyStr := (toString n).toList

/-- `' or '.join(names)` (and any other separator join). -/
def joinWith (sep : PyStr) : List PyStr → PyStr
  | [] => []
  | [x] => x
  | x :: y :: rest => x ++ sep ++ joinWith sep (y :: rest)

/-- The upper-bound half of the range check of `validate`:
`if arg_max is not None and num >= arg_max: raise ValueError(...)`. -/
def checkMax (valWord nm : PyStr) (num : Int) (mx : Option Int) : Except PyError Unit :=
  match mx with
  | some m =>
    if num ≥ m then
      .error (.valueError (valWord ++ " ".toList ++ nm ++ " must be less than ".toList ++ intStr m))
    else .ok ()
  | Option.none => .ok ()

/-- The range check of `validate`: the lower-bound test
(`arg_min is not None and num < arg_min`), then `checkMax`. -/
def rangeCheck (valWord nm : PyStr) (num : Int) (mn mx : Option Int) : Except PyError Unit :=
  match mn with
  | some m =>
    if num < m then
      .error (.valueError
        (valWord ++ " ".toList ++ nm ++ " must be greater or equal to ".toList ++ intStr m))
    else checkMax valWord nm num mx
  | Option.none => checkMax valWord nm num mx

/-- The body of the loop of `validate` for a single rule: the type check,
then (for rules of length at least 4, on non-`None` values) the range check
on the magnitude. -/
def validateRule (r : Rule) : Except PyError Unit :=
  let ts := r.typeSpec.toList
  if ¬ isinstance r.val ts then
    .error (.typeError ("Expected type ".toList ++ joinWith " or ".toList (ts.map typeName)))
  else
    match r.bounds with
    | Option.none => .ok ()
    | some (mn, mx) =>
      if isNone r.val then .ok ()
      else
        rangeCheck (if hasLen r.val then "Length".toList else "Value".toList)
          r.nameStr (magnitude r.val) mn mx

/-- `validate(*args)` from `nlp_architect/utils/io.py`: check each rule in
order, raising at the first violation. -/
def validate : List Rule → Except PyError Unit
  | [] => .ok ()
  | r :: rs =>
    match validateRule r with
    | .ok _ => validate rs
    | .error e => .error e

/-- The filesystem facts the validators consult. -/
structure FS where
  isfile : PyStr → Bool
  isdir : PyStr → Bool

/-- `os.path.abspath(arg)` on a `PyVal`: absolutize a `str`, raise the
`os.fspath` `TypeError` otherwise. -/
def pyAbspath (cwd : PyStr) (v : PyVal) : Except PyError PyStr :=
  match v with
  | .str s => .ok (abspathStr cwd s)
  | w =>
    .error (.typeError
      ("expected str, bytes or os.PathLike object, not ".toList ++ typeName (typeOf w)))

/-- `validate_existing_filepath` from `nlp_architect/utils/io.py`. -/
def validate_existing_filepath (fs : FS) (arg : PyVal) : Except PyError PyVal :=
  match validate [Rule.quad arg (TypeSpec.single .strT) (some 0) (some 255)] with
  | .error e => .error e
  | .ok _ =>
    match arg with
    | .str s =>
      if fs.isfile s then .ok (.str s)
      else .error (.valueError (s ++ " does not exist.".toList))
    | v => .ok v  -- unreachable: the type check above rejected non-strings

/-- `validate_existing_directory` from `nlp_architect/utils/io.py`:
absolutize first, then validate the absolutized path. -/
def validate_existing_directory (fs : FS) (cwd : PyStr) (arg : PyVal) : Except PyError PyVal :=
  match pyAbspath cwd arg with
  | .error e => .error e
  | .ok a =>
    match validate [Rule.quad (.str a) (TypeSpec.single .strT) (some 0) (some 255)] with
    | .error e => .error e
    | .ok _ =>
      if fs.isdir a then .ok (.str a)
      else .error (.valueError (a ++ " does not exist".toList))

/-- Python truthiness of the values a validator can return. -/
def pyTruthy : PyVal → Bool
  | .none => false
  | .bool b => b
  | .int n => decide (n ≠ 0)
  | .str s => decide (s ≠ [])
  | .list l => !l.isEmpty

/-- `validate_parent_exists` from `nlp_architect/utils/io.py`: absolutize,
take the parent directory, validate it, and return the absolute path when
the validator's result is truthy (the `None` branch is reachable only for a
falsy validator result). -/
def validate_parent_exists (fs : FS) (cwd : PyStr) (arg : PyVal) : Except PyError PyVal :=
  match pyAbspath cwd arg with
  | .error e => .error e
  | .ok a =>
    let dirArg := dirname (abspathStr cwd a)
    match validate_existing_directory fs cwd (.str dirArg) with
    | .error e => .error e
    | .ok r => if pyTruthy r then .ok (.str a) else .ok PyVal.none

/-- A filesystem on which nothing exists. -/
def fsEmpty : FS := FS.mk (fun _ => false) (fun _ => false)

/-- A filesystem on which every path is both a file and a directory. -/
def fsFull : FS := FS.mk (fun _ => true) (fun _ => true)

/-! Regular expressions, for `validate_proxy_path`.  Matching is decided
with Brzozowski derivatives; `mkSeq`/`mkAlt` are smart constructors that
keep derivative terms small. -/

inductive Regex where
  | emp
  | eps
  | cls (p : Char → Bool)
  | seq (r1 r2 : Regex)
  | alt (r1 r2 : Regex)
  | star (r : Regex)

def nullable : Regex → Bool
  | .emp => false
  | .eps => true
  | .cls _ => false
  | .seq a b => nullable a && nullable b
  | .alt a b => nullable a || nullable b
  | .star _ => true

def mkSeq : Regex → Regex → Regex
  | .emp, _ => .emp
  | .eps, r => r
  | a, b => .seq a b

def mkAlt : Regex → Regex → Regex
  | .emp, r => r
  | a, .emp => a
  | a, b => .alt a b

def deriv (r : Regex) (c : Char) : Regex :=
  match r with
  | .emp => .emp
  | .eps => .emp
  | .cls p => if p c then .eps else .emp
  | .seq a b =>
    if nullable a then mkAlt (mkSeq (deriv a c) b) (deriv b c)
    else mkSeq (deriv a c) b
  | .alt a b => mkAlt (deriv a c) (deriv b c)
  | .star a => mkSeq (deriv a c) (.star a)

/-- Whole-string match: derive by each character, then test nullability. -/
def rmatch (r : Regex) (s : PyStr) : Bool := nullable (s.foldl deriv r)

/-- A literal character under `re.IGNORECASE` (the pattern letter is given
in lower case). -/
def ichr (c : Char) : Regex := .cls (fun d => d.toLower = c)

/-- A literal string under `re.IGNORECASE`. -/
def istr (s : String) : Regex := s.toList.foldr (fun c r => Regex.seq (ichr c) r) .eps

def ropt (r : Regex) : Regex := .alt .eps r

def rplus (r : Regex) : Regex := .seq r (.star r)

/-- Exactly `n` copies. -/
def rexact (r : Regex) : Nat → Regex
  | 0 => .eps
  | n + 1 => .seq r (rexact r n)

/-- At most `n` copies. -/
def upToN (r : Regex) : Nat → Regex
  | 0 => .eps
  | n + 1 => ropt (.seq r (upToN r n))

/-- `r{lo,hi}`. -/
def repRange (r : Regex) (lo hi : Nat) : Regex := .seq (rexact r lo) (upToN r (hi - lo))

/-- `r{lo,}`. -/
def atLeastN (r : Regex) (lo : Nat) : Regex := .seq (rexact r lo) (.star r)

/-- `[A-Z0-9]` under `re.IGNORECASE`. -/
def alnumC : Regex := .cls (fun c => c.isAlphanum)

/-- `[A-Z0-9-]` under `re.IGNORECASE`. -/
def alnumDashC : Regex := .cls (fun c => c.isAlphanum || c = '-')

/-- `[A-Z]` under `re.IGNORECASE`. -/
def alphaC : Regex := .cls (fun c => c.isAlpha)

/-- `\d`. -/
def digitC : Regex := .cls (fun c => c.isDigit)

/-- `\S`. -/
def nonSpaceC : Regex :=
  .cls (fun c => !(c = ' ' || c = '\t' || c = '\n' || c = '\r' || c = '\x0b' || c = '\x0c'))

/-- `(?:http|ftp)s?://`. -/
def schemeR : Regex :=
  .seq (.alt (istr "http") (istr "ftp")) (.seq (ropt (ichr 's')) (istr "://"))

/-- `(?:[A-Z0-9](?:[A-Z0-9-]{0,61}[A-Z0-9])?\.)`. -/
def labelR : Regex :=
  .seq alnumC (.seq (ropt (.seq (upToN alnumDashC 61) alnumC)) (ichr '.'))

/-- `(?:[A-Z]{2,6}\.?|[A-Z0-9-]{2,}\.?)`. -/
def tldR : Regex :=
  .alt (.seq (repRange alphaC 2 6) (ropt (ichr '.')))
    (.seq (atLeastN alnumDashC 2) (ropt (ichr '.')))

/-- `\d{1,3}\.\d{1,3}\.\d{1,3}\.\d{1,3}`. -/
def ipR : Regex :=
  .seq (repRange digitC 1 3) (.seq (ichr '.')
    (.seq (repRange digitC 1 3) (.seq (ichr '.')
      (.seq (repRange digitC 1 3) (.seq (ichr '.') (repRange digitC 1 3))))))

/-- The host alternation: domain, `localhost`, or dotted IPv4. -/
def hostR : Regex := .alt (.seq (rplus labelR) tldR) (.alt (istr "localhost") ipR)

/-- `(?::\d+)?`. -/
def portR : Regex := ropt (.seq (ichr ':') (rplus digitC))

/-- `(?:/?|[/?]\S+)`. -/
def tailR : Regex :=
  .alt (ropt (ichr '/')) (.seq (.cls (fun c => c = '/' || c = '?')) (rplus nonSpaceC))

/-- The full proxy-path pattern of `validate_proxy_path`, anchored on both
sides; the trailing `(?:\n)?` models Python's `$`, which also matches just
before a final newline. -/
def proxyRegex : Regex :=
  .seq schemeR (.seq hostR (.seq portR (.seq tailR (ropt (.cls (fun c => c = '\n'))))))

/-- `re.match(proxy_validation_regex, s) is not None`. -/
def proxyMatch (s : PyStr) : Bool := rmatch proxyRegex s

/-- `validate_proxy_path` from `nlp_architect/utils/io.py`. -/
def validate_proxy_path (arg : Option PyStr) : Except PyError (Option PyStr) :=
  match arg with
  | Option.none => .ok Option.none
  | some s =>
    if proxyMatch s then .ok (some s)
    else .error (.valueError (s ++ " is not a valid proxy path".toList))

/-! Helper lemmas about the path functions. -/

/-- A normalized path component: nonempty, not `.`, not `..`, slash-free. -/
def Good (c : PyStr) : Prop := c ≠ [] ∧ c ≠ ['.'] ∧ c ≠ ['.', '.'] ∧ '/' ∉ c

theorem mem_of_dropLast {α : Type} {x : α} : ∀ {l : List α}, x ∈ l.dropLast → x ∈ l := by
  intro l
  induction l with
  | nil => intro h; exact absurd h (List.not_mem_nil x)
  | cons a t ih =>
    cases t with
    | nil => intro h; exact absurd h (List.not_mem_nil x)
    | cons b t' =>
      intro h
      rw [List.dropLast_cons₂] at h
      rcases List.mem_cons.mp h with h | h
      · exact h ▸ List.mem_cons_self _ _
      · exact List.mem_cons_of_mem _ (ih h)

theorem mem_of_getLast?_eq {α : Type} {a : α} : ∀ {l : List α}, l.getLast? = some a → a ∈ l := by
  intro l
  induction l with
  | nil => intro h; simp at h
  | cons x t ih =>
    cases t with
    | nil => intro h; simp [List.getLast?] at h; simp [h]
    | cons y t' =>
      intro h
      rw [List.getLast?_cons_cons] at h
      exact List.mem_cons_of_mem _ (ih h)

theorem good_normStep {k : Nat} (hk : k ≠ 0) {acc : List PyStr}
    (hacc : ∀ x ∈ acc, Good x) {comp : PyStr} (hc : '/' ∉ comp) :
    ∀ x ∈ normStep k acc comp, Good x := by
  unfold normStep
  split
  · exact hacc
  · rename_i hskip
    split
    · rename_i hcond
      intro x hx
      rcases List.mem_append.mp hx with hx | hx
      · exact hacc x hx
      · rcases List.mem_singleton.mp hx with rfl
        push_neg at hskip
        refine ⟨hskip.1, hskip.2, ?_, hc⟩
        rcases hcond with h | h | h
        · exact h
        · exact absurd h.1 hk
        · exact absurd ((hacc _ (mem_of_getLast?_eq h)).2.2.1 rfl) id
    · intro x hx
      exact hacc x (mem_of_dropLast hx)

theorem good_foldl {k : Nat} (hk : k ≠ 0) :
    ∀ (comps : List PyStr) (acc : List PyStr), (∀ x ∈ acc, Good x) →
      (∀ c ∈ comps, '/' ∉ c) → ∀ x ∈ List.foldl (normStep k) acc comps, Good x := by
  intro comps
  induction comps with
  | nil => intro acc hacc _ x hx; exact hacc x hx
  | cons c cs ih =>
    intro acc hacc hcs x hx
    rw [List.foldl_cons] at hx
    exact ih (normStep k acc c)
      (good_normStep hk hacc (hcs c (List.mem_cons_self _ _)))
      (fun d hd => hcs d (List.mem_cons_of_mem _ hd)) x hx

theorem normStep_good (k : Nat) (acc : List PyStr) {comp : PyStr} (h : Good comp) :
    normStep k acc comp = acc ++ [comp] := by
  unfold normStep
  rw [if_neg, if_pos]
  · exact Or.inl h.2.2.1
  · rintro (h1 | h1)
    · exact h.1 h1
    · exact h.2.1 h1

theorem foldl_normStep_clean (k : Nat) :
    ∀ (comps : List PyStr) (acc : List PyStr), (∀ c ∈ comps, Good c) →
      List.foldl (normStep k) acc comps = acc ++ comps := by
  intro comps
  induction comps with
  | nil => intro acc _; simp
  | cons c cs ih =>
    intro acc h
    rw [List.foldl_cons, normStep_good k acc (h c (List.mem_cons_self _ _)),
      ih (acc ++ [c]) (fun d hd => h d (List.mem_cons_of_mem _ hd))]
    simp

theorem splitA_no_slash :
    ∀ p : PyStr, ('/' ∉ (splitOnSlashA p).1) ∧ ∀ s ∈ (splitOnSlashA p).2, '/' ∉ s := by
  intro p
  induction p with
  | nil => simp [splitOnSlashA]
  | cons c rest ih =>
    by_cases hc : c = '/'
    · subst hc
      simp only [splitOnSlashA, if_pos rfl]
      refine ⟨by simp, ?_⟩
      intro s hs
      rcases List.mem_cons.mp hs with rfl | hs
      · exact ih.1
      · exact ih.2 s hs
    · simp only [splitOnSlashA, if_neg hc]
      refine ⟨?_, ih.2⟩
      intro hmem
      rcases List.mem_cons.mp hmem with h | h
      · exact hc h.symm
      · exact ih.1 h

theorem splitA_append {a : PyStr} (l : PyStr) (ha : '/' ∉ a) :
    splitOnSlashA (a ++ l) = (a ++ (splitOnSlashA l).1, (splitOnSlashA l).2) := by
  induction a with
  | nil => simp
  | cons c a' ih =>
    have hc : c ≠ '/' := fun h => ha (h ▸ List.mem_cons_self _ _)
    have ha' : '/' ∉ a' := fun h => ha (List.mem_cons_of_mem _ h)
    simp only [List.cons_append, splitOnSlashA, if_neg hc]
    simp [ih ha']

theorem splitOnSlash_joinSlash :
    ∀ comps : List PyStr, comps ≠ [] → (∀ c ∈ comps, '/' ∉ c) →
      splitOnSlash (joinSlash comps) = comps := by
  intro comps
  induction comps with
  | nil => intro h; exact absurd rfl h
  | cons x xs ih =>
    intro _ hns
    have hx : '/' ∉ x := hns x (List.mem_cons_self _ _)
    cases xs with
    | nil =>
      have : splitOnSlashA (x ++ ([] : PyStr)) = (x ++ [], []) := by
        rw [splitA_append [] hx]; rfl
      rw [List.append_nil] at this
      simp [joinSlash, splitOnSlash, this]
    | cons y ys =>
      have hys : ('/' : Char) :: joinSlash (y :: ys) = [('/' : Char)] ++ joinSlash (y :: ys) := rfl
      have h1 : splitOnSlashA (x ++ ('/' :: joinSlash (y :: ys))) =
          (x ++ (splitOnSlashA ('/' :: joinSlash (y :: ys))).1,
            (splitOnSlashA ('/' :: joinSlash (y :: ys))).2) :=
        splitA_append _ hx
      have h2 : splitOnSlashA ('/' :: joinSlash (y :: ys)) =
          ([], splitOnSlash (joinSlash (y :: ys))) := by
        simp [splitOnSlashA, splitOnSlash]
      have h3 : splitOnSlash (joinSlash (y :: ys)) = y :: ys :=
        ih (by simp) (fun c hc => hns c (List.mem_cons_of_mem _ hc))
      show splitOnSlash (x ++ '/' :: joinSlash (y :: ys)) = x :: y :: ys
      rw [splitOnSlash, h1, h2, List.append_nil, h3]

theorem lstrip_replicate (k : Nat) (l : PyStr) :
    lstripSlash (List.replicate k '/' ++ l) = lstripSlash l := by
  induction k with
  | zero => simp
  | succ n ih => simp [lstripSlash, List.replicate_succ] at ih ⊢

theorem lstrip_of_head_ne {l : PyStr} (h : ∀ c, l.head? = some c → c ≠ '/') :
    lstripSlash l = l := by
  cases l with
  | nil => rfl
  | cons c t =>
    have hc : c ≠ '/' := h c rfl
    simp [lstripSlash, List.dropWhile_cons, hc]

theorem joinSlash_cons_append (x : PyStr) (y : PyStr) (ys : List PyStr) :
    joinSlash (x :: y :: ys) = x ++ '/' :: joinSlash (y :: ys) := rfl

theorem joinSlash_head {x : PyStr} (xs : List PyStr) {c : Char} (hx : x.head? = some c) :
    (joinSlash (x :: xs)).head? = some c := by
  cases xs with
  | nil => exact hx
  | cons y ys =>
    rw [joinSlash_cons_append]
    cases x with
    | nil => simp at hx
    | cons d t => simpa using hx

theorem good_head {x : PyStr} (h : Good x) : ∃ c, x.head? = some c ∧ c ≠ '/' := by
  cases x with
  | nil => exact absurd rfl h.1
  | cons c t =>
    exact ⟨c, rfl, fun hc => h.2.2.2 (hc ▸ List.mem_cons_self _ _)⟩

theorem lstrip_joinSlash_good {comps : List PyStr} (h : ∀ c ∈ comps, Good c) :
    lstripSlash (joinSlash comps) = joinSlash comps := by
  cases comps with
  | nil => rfl
  | cons x xs =>
    obtain ⟨c, hc, hcne⟩ := good_head (h x (List.mem_cons_self _ _))
    exact lstrip_of_head_ne (fun d hd => by
      rw [joinSlash_head xs hc] at hd
      exact (Option.some_inj.mp hd) ▸ hcne)

theorem initSlashes_slash_cons_ne_zero (p : PyStr) : initSlashes ('/' :: p) ≠ 0 := by
  simp only [initSlashes, isSlashHead]
  norm_num
  split <;> simp

theorem splitOnSlash_slash_cons (p : PyStr) :
    splitOnSlash ('/' :: p) = [] :: splitOnSlash p := by
  simp [splitOnSlash, splitOnSlashA]

theorem normpath_cons_slash (p : PyStr) :
    normpath ('/' :: p) =
      List.replicate (initSlashes ('/' :: p)) '/' ++
        joinSlash (List.foldl (normStep (initSlashes ('/' :: p))) [] (splitOnSlash p)) := by
  have hne : ('/' :: p) ≠ [] := by simp
  have hk := initSlashes_slash_cons_ne_zero p
  unfold normpath
  rw [if_neg hne]
  simp only [splitOnSlash_slash_cons, List.foldl_cons]
  have hstep : normStep (initSlashes ('/' :: p)) [] [] = [] := by
    unfold normStep; simp
  rw [hstep, if_neg]
  intro hq
  rcases Nat.exists_eq_succ_of_ne_zero hk with ⟨m, hm⟩
  rw [hm, List.replicate_succ] at hq
  simp at hq

theorem splitOnSlash_no_slash (p : PyStr) : ∀ c ∈ splitOnSlash p, '/' ∉ c := by
  intro c hc
  rcases List.mem_cons.mp hc with rfl | h
  · exact (splitA_no_slash p).1
  · exact (splitA_no_slash p).2 c h

/-- The normalized, slash-stripped form `sanitize_path` computes is a
slash-join of clean components. -/
theorem sanitizeCore_spec (p : PyStr) :
    ∃ comps : List PyStr, (∀ c ∈ comps, Good c) ∧
      lstripSlash (normpath ('/' :: p)) = joinSlash comps := by
  refine ⟨List.foldl (normStep (initSlashes ('/' :: p))) [] (splitOnSlash p), ?_, ?_⟩
  · exact good_foldl (initSlashes_slash_cons_ne_zero p) _ [] (by simp) (splitOnSlash_no_slash p)
  · rw [normpath_cons_slash, lstrip_replicate]
    exact lstrip_joinSlash_good
      (good_foldl (initSlashes_slash_cons_ne_zero p) _ [] (by simp) (splitOnSlash_no_slash p))

/-- Sanitizing a slash-join of clean components returns it unchanged. -/
theorem sanitizeCore_joinSlash {comps : List PyStr} (h : ∀ c ∈ comps, Good c) :
    lstripSlash (normpath ('/' :: joinSlash comps)) = joinSlash comps := by
  cases comps with
  | nil => rfl
  | cons x xs =>
    obtain ⟨c, hc, hcne⟩ := good_head (h x (List.mem_cons_self _ _))
    have hhead : (joinSlash (x :: xs)).head? = some c := joinSlash_head xs hc
    have hk : initSlashes ('/' :: joinSlash (x :: xs)) = 1 := by
      simp only [initSlashes, isSlashHead, List.head?_cons, List.drop_one, List.tail_cons,
        List.drop_succ_cons, List.drop_zero]
      rw [if_pos (by simp), if_neg]
      simp [hhead, hcne]
    rw [normpath_cons_slash, hk, foldl_normStep_clean 1 _ []
      (by rw [splitOnSlash_joinSlash (x :: xs) (by simp)
        (fun d hd => (h d hd).2.2.2)]; exact h)]
    rw [splitOnSlash_joinSlash (x :: xs) (by simp) (fun d hd => (h d hd).2.2.2)]
    simp only [List.nil_append, List.replicate_one, List.singleton_append]
    rw [show ('/' :: joinSlash (x :: xs)) = List.replicate 1 '/' ++ joinSlash (x :: xs) from rfl,
      lstrip_replicate]
    exact lstrip_joinSlash_good h

theorem takeWhile_append_all (p : Char → Bool) (x : PyStr) (r : PyStr)
    (h : ∀ c ∈ x, p c = true) :
    List.takeWhile p (x ++ r) = x ++ List.takeWhile p r := by
  induction x with
  | nil => simp
  | cons c t ih =>
    rw [List.cons_append, List.takeWhile_cons, if_pos (h c (List.mem_cons_self _ _)),
      ih (fun d hd => h d (List.mem_cons_of_mem _ hd)), List.cons_append]

/-- Unfolding `sanitize_path p = .ok s`: the normalized core equals `s` and
its length is below 255. -/
theorem sanitize_path_ok_iff (p s : PyStr) :
    sanitize_path p = .ok s ↔
      lstripSlash (normpath ('/' :: p)) = s ∧ s.length < 255 := by
  simp only [sanitize_path]
  constructor
  · intro h
    split at h
    · rename_i hlt
      cases h
      exact ⟨rfl, hlt⟩
    · cases h
  · rintro ⟨rfl, hlt⟩
    rw [if_pos hlt]

/-- The first slash-delimited component of a clean join is its first
element. -/
theorem takeWhile_joinSlash {x : PyStr} (xs : List PyStr) (hx : Good x) :
    List.takeWhile (fun c => decide (c ≠ '/')) (joinSlash (x :: xs)) = x := by
  have hall : ∀ c ∈ x, (decide (c ≠ '/')) = true := by
    intro c hc
    simp only [decide_eq_true_eq]
    exact fun h => hx.2.2.2 (h ▸ hc)
  cases xs with
  | nil =>
    show List.takeWhile (fun c => decide (c ≠ '/')) x = x
    have h := takeWhile_append_all (fun c => decide (c ≠ '/')) x ([] : PyStr) hall
    rw [List.append_nil] at h
    rw [h, List.takeWhile_nil, List.append_nil]
  | cons y ys =>
    rw [joinSlash_cons_append, takeWhile_append_all _ _ _ hall, List.takeWhile_cons]
    simp

/-- `validate` on a single rule is the single rule check. -/
theorem validate_singleton (r : Rule) : validate [r] = validateRule r := by
  unfold validate
  cases h : validateRule r with
  | ok u => cases u; rfl
  | error e => rfl

/-- `rangeCheck` succeeds iff neither bound is violated, and every failure
is a `ValueError`. -/
theorem rangeCheck_spec (valWord nm : PyStr) (num : Int) (mn mx : Option Int) :
    (rangeCheck valWord nm num mn mx = .ok () ↔
      ¬ ((∃ m, mn = some m ∧ num < m) ∨ (∃ m, mx = some m ∧ num ≥ m))) ∧
    (∀ e, rangeCheck valWord nm num mn mx = .error e → ∃ msg, e = .valueError msg) := by
  rcases mn with _ | m
  · rcases mx with _ | m'
    · simp [rangeCheck, checkMax]
    · by_cases hge : num ≥ m'
      · constructor
        · simp only [rangeCheck, checkMax, if_pos hge]
          constructor
          · intro h; cases h
          · intro h; exact absurd (Or.inr ⟨m', rfl, hge⟩) h
        · simp only [rangeCheck, checkMax, if_pos hge]
          intro e he
          cases he
          exact ⟨_, rfl⟩
      · constructor
        · simp only [rangeCheck, checkMax, if_neg hge]
          constructor
          · intro _
            rintro (⟨m0, hm0, _⟩ | ⟨m0, hm0, hge0⟩)
            · cases hm0
            · cases hm0; exact hge hge0
          · intro _; trivial
        · simp only [rangeCheck, checkMax, if_neg hge]
          intro e he; cases he
  · by_cases hlt : num < m
    · constructor
      · simp only [rangeCheck, if_pos hlt]
        constructor
        · intro h; cases h
        · intro h; exact absurd (Or.inl ⟨m, rfl, hlt⟩) h
      · simp only [rangeCheck, if_pos hlt]
        intro e he
        cases he
        exact ⟨_, rfl⟩
    · rcases mx with _ | m'
      · constructor
        · simp only [rangeCheck, checkMax, if_neg hlt]
          constructor
          · intro _
            rintro (⟨m0, hm0, hlt0⟩ | ⟨m0, hm0, _⟩)
            · cases hm0; exact hlt hlt0
            · cases hm0
          · intro _; trivial
        · simp only [rangeCheck, checkMax, if_neg hlt]
          intro e he; cases he
      · by_cases hge : num ≥ m'
        · constructor
          · simp only [rangeCheck, checkMax, if_neg hlt, if_pos hge]
            constructor
            · intro h; cases h
            · intro h; exact absurd (Or.inr ⟨m', rfl, hge⟩) h
          · simp only [rangeCheck, checkMax, if_neg hlt, if_pos hge]
            intro e he
            cases he
            exact ⟨_, rfl⟩
        · constructor
          · simp only [rangeCheck, checkMax, if_neg hlt, if_neg hge]
            constructor
            · intro _
              rintro (⟨m0, hm0, hlt0⟩ | ⟨m0, hm0, hge0⟩)
              · cases hm0; exact hlt hlt0
              · cases hm0; exact hge hge0
            · intro _; trivial
          · simp only [rangeCheck, checkMax, if_neg hlt, if_neg hge]
            intro e he; cases he

/-- The `validate((arg, str, 0, 255))` call of the filepath/directory
validators, on a string: only the upper bound can fire. -/
theorem validate_str_rule (s : PyStr) :
    validate [Rule.quad (.str s) (TypeSpec.single .strT) (some 0) (some 255)] =
      checkMax "Length".toList [] ((s.length : Nat) : Int) (some 255) := by
  rw [validate_singleton]
  show rangeCheck "Length".toList [] (magnitude (.str s)) (some 0) (some 255) =
    checkMax "Length".toList [] ((s.length : Nat) : Int) (some 255)
  have hmag : magnitude (PyVal.str s) = ((s.length : Nat) : Int) := rfl
  rw [hmag]
  simp only [rangeCheck]
  rw [if_neg]
  simp

/-- Closed form of `validate_existing_filepath` on a string argument. -/
theorem vef_eq (fs : FS) (s : PyStr) :
    validate_existing_filepath fs (.str s) =
      if ((s.length : Nat) : Int) ≥ 255 then
        .error (.valueError ("Length  must be less than 255".toList))
      else if fs.isfile s then .ok (.str s)
      else .error (.valueError (s ++ " does not exist.".toList)) := by
  unfold validate_existing_filepath
  rw [validate_str_rule]
  simp only [checkMax]
  by_cases h : (((s.length : Nat) : Int) ≥ 255)
  · rw [if_pos h, if_pos h]
    rfl
  · rw [if_neg h, if_neg h]

/-- `isinstance(v, (str,))` fails for every non-string value. -/
theorem isinstance_str_false {v : PyVal} (h : ∀ t, v ≠ .str t) :
    isinstance v [PyType.strT] = false := by
  cases v with
  | str s => exact absurd rfl (h s)
  | none => rfl
  | bool b => rfl
  | int n => rfl
  | list l => rfl

/-- `validate_existing_filepath` on a non-string raises the `TypeError` of
the `validate` type check. -/
theorem vef_non_str (fs : FS) {v : PyVal} (h : ∀ t, v ≠ .str t) :
    validate_existing_filepath fs v =
      .error (.typeError ("Expected type str".toList)) := by
  unfold validate_existing_filepath
  rw [validate_singleton]
  unfold validateRule
  simp [Rule.val, Rule.typeSpec, TypeSpec.toList, isinstance_str_false h]
  rfl

/-- Closed form of `validate_existing_directory` on a string argument. -/
theorem ved_eq (fs : FS) (cwd s : PyStr) :
    validate_existing_directory fs cwd (.str s) =
      if (((abspathStr cwd s).length : Nat) : Int) ≥ 255 then
        .error (.valueError ("Length  must be less than 255".toList))
      else if fs.isdir (abspathStr cwd s) then .ok (.str (abspathStr cwd s))
      else .error (.valueError (abspathStr cwd s ++ " does not exist".toList)) := by
  simp only [validate_existing_directory, pyAbspath]
  rw [validate_str_rule]
  simp only [checkMax]
  by_cases h : ((((abspathStr cwd s).length : Nat) : Int) ≥ 255)
  · rw [if_pos h, if_pos h]
    rfl
  · rw [if_neg h, if_neg h]

theorem normpath_ne_nil (p : PyStr) : normpath p ≠ [] := by
  simp only [normpath]
  split
  · simp
  · split
    · simp
    · assumption

theorem abspathStr_ne_nil (cwd p : PyStr) : abspathStr cwd p ≠ [] := by
  unfold abspathStr
  split
  · exact normpath_ne_nil p
  · exact normpath_ne_nil _

/-! Claim theorems. -/

/-- C1: `validate((v, t))` succeeds iff `v` is an instance of one of the
accepted types; otherwise it raises a `TypeError` whose message names all
accepted type names, joined by `' or '`. -/
theorem C1_validate_type_check :
    ∀ (v : PyVal) (t : TypeSpec),
      (validate [Rule.pair v t] = .ok () ↔ isinstance v t.toList = true) ∧
      (isinstance v t.toList = false →
        validate [Rule.pair v t] =
          .error (.typeError
            ("Expected type ".toList ++ joinWith " or ".toList (t.toList.map typeName)))) := by
  intro v t
  rw [validate_singleton]
  by_cases hi : isinstance v t.toList
  · constructor
    · simp [validateRule, hi, Rule.val, Rule.typeSpec, Rule.bounds]
    · intro h; rw [hi] at h; cases h
  · have hif : isinstance v t.toList = false := by
      cases h : isinstance v t.toList
      · rfl
      · exact absurd h hi
    constructor
    · simp [validateRule, hi, hif, Rule.val, Rule.typeSpec]
    · intro _
      simp [validateRule, hi, Rule.val, Rule.typeSpec]

theorem C1_witness :
    validate [Rule.pair (PyVal.int 3) (TypeSpec.tuple [PyType.strT, PyType.noneT])] =
      .error (.typeError ("Expected type str or NoneType".toList)) := by
  have h := (C1_validate_type_check (PyVal.int 3) (TypeSpec.tuple [PyType.strT, PyType.noneT])).2
    (by decide)
  rw [h]
  rfl

/-- C3: every result `sanitize_path` returns is a relative path: no leading
separator, a first component that is not the traversal component `..`, and
length strictly below 255; in particular `sanitize_path("../../etc/passwd")`
yields `"etc/passwd"`. -/
theorem C3_sanitize_path_relative :
    (∀ p s, sanitize_path p = .ok s →
      (∀ c, s.head? = some c → c ≠ '/') ∧
      List.takeWhile (fun c => decide (c ≠ '/')) s ≠ ['.', '.'] ∧
      s.length < 255) ∧
    sanitize_path "../../etc/passwd".toList = .ok "etc/passwd".toList := by
  constructor
  · intro p s hps
    obtain ⟨hcore, hlen⟩ := (sanitize_path_ok_iff p s).mp hps
    obtain ⟨comps, hgood, hjoin⟩ := sanitizeCore_spec p
    have hs : s = joinSlash comps := by rw [← hcore, hjoin]
    subst hs
    refine ⟨?_, ?_, hlen⟩
    · cases comps with
      | nil => intro c hc; simp [joinSlash] at hc
      | cons x xs =>
        obtain ⟨c0, hc0, hc0ne⟩ := good_head (hgood x (List.mem_cons_self _ _))
        intro c hc
        rw [joinSlash_head xs hc0] at hc
        exact (Option.some_inj.mp hc) ▸ hc0ne
    · cases comps with
      | nil => simp [joinSlash]
      | cons x xs =>
        rw [takeWhile_joinSlash xs (hgood x (List.mem_cons_self _ _))]
        exact (hgood x (List.mem_cons_self _ _)).2.2.1
  · rfl

theorem C3_witness :
    (∀ c, ("etc/passwd".toList : PyStr).head? = some c → c ≠ '/') ∧
    List.takeWhile (fun c => decide (c ≠ '/')) "etc/passwd".toList ≠ ['.', '.'] ∧
    ("etc/passwd".toList : PyStr).length < 255 :=
  C3_sanitize_path_relative.1 "../../etc/passwd".toList "etc/passwd".toList (by rfl)

/-- C2: for rules of length at least 4 whose value passes the type check
and is not `None`, `validate` raises a `ValueError` exactly when the
magnitude (length for sized values, the value itself otherwise) is below
the given `min` or at least the given `max` (an exclusive bound); for a
string rule `(s, str, min, max)` it fails iff `len(s) < min` or
`len(s) ≥ max`; a `None` value skips the range check entirely. -/
theorem C2_validate_range_check :
    (∀ (r : Rule) (mn mx : Option Int), r.bounds = some (mn, mx) →
      isinstance r.val r.typeSpec.toList = true → isNone r.val = false →
      ((validate [r] = .ok ()) ↔
        ¬ ((∃ m, mn = some m ∧ magnitude r.val < m) ∨
           (∃ m, mx = some m ∧ magnitude r.val ≥ m))) ∧
      (∀ e, validate [r] = .error e → ∃ msg, e = .valueError msg)) ∧
    (∀ (s : PyStr) (mn mx : Int),
      (validate [Rule.quad (.str s) (TypeSpec.single .strT) (some mn) (some mx)] ≠ .ok ()) ↔
        ((s.length : Int) < mn ∨ (s.length : Int) ≥ mx)) ∧
    (∀ (t : TypeSpec) (mn mx : Option Int), isinstance PyVal.none t.toList = true →
      validate [Rule.quad PyVal.none t mn mx] = .ok ()) := by
  have main : ∀ (r : Rule) (mn mx : Option Int), r.bounds = some (mn, mx) →
      isinstance r.val r.typeSpec.toList = true → isNone r.val = false →
      ((validate [r] = .ok ()) ↔
        ¬ ((∃ m, mn = some m ∧ magnitude r.val < m) ∨
           (∃ m, mx = some m ∧ magnitude r.val ≥ m))) ∧
      (∀ e, validate [r] = .error e → ∃ msg, e = .valueError msg) := by
    intro r mn mx hb hi hn
    rw [validate_singleton]
    have hrule : validateRule r =
        rangeCheck (if hasLen r.val then "Length".toList else "Value".toList)
          r.nameStr (magnitude r.val) mn mx := by
      simp [validateRule, hb, hi, hn]
    rw [hrule]
    exact rangeCheck_spec _ _ _ _ _
  refine ⟨main, ?_, ?_⟩
  · intro s mn mx
    have h := (main (Rule.quad (.str s) (TypeSpec.single .strT) (some mn) (some mx))
      (some mn) (some mx) rfl (by rfl) rfl).1
    have hmag : magnitude (PyVal.str s) = (s.length : Int) := rfl
    constructor
    · intro hne
      by_cases hcase : ((s.length : Int) < mn ∨ (s.length : Int) ≥ mx)
      · exact hcase
      · exfalso
        refine hne (h.mpr ?_)
        rintro (⟨m0, hm0, hlt0⟩ | ⟨m0, hm0, hge0⟩) <;> cases hm0
        · exact hcase (Or.inl (hmag ▸ hlt0))
        · exact hcase (Or.inr (hmag ▸ hge0))
    · intro hcase hok
      rcases hcase with hlt | hge
      · exact (h.mp hok) (Or.inl ⟨mn, rfl, hmag ▸ hlt⟩)
      · exact (h.mp hok) (Or.inr ⟨mx, rfl, hmag ▸ hge⟩)
  · intro t mn mx hi
    rw [validate_singleton]
    unfold validateRule
    simp [Rule.val, Rule.typeSpec, Rule.bounds, hi, isNone]

theorem C2_witness :
    ((validate [Rule.quad (.str "abc".toList) (TypeSpec.single .strT)
        (some 5) (some 10)] = .ok ()) ↔
      ¬ ((∃ m, (some 5 : Option Int) = some m ∧
            magnitude (PyVal.str "abc".toList) < m) ∨
         (∃ m, (some 10 : Option Int) = some m ∧
            magnitude (PyVal.str "abc".toList) ≥ m))) ∧
    (∀ e, validate [Rule.quad (.str "abc".toList) (TypeSpec.single .strT)
        (some 5) (some 10)] = .error e → ∃ msg, e = .valueError msg) :=
  (C2_validate_range_check.1 (Rule.quad (.str "abc".toList) (TypeSpec.single .strT)
    (some 5) (some 10)) (some 5) (some 10) (by rfl) (by decide) (by rfl))

/-- C8: the type check strictly precedes the range check: a value that
fails the type check always produces a `TypeError`, even when its magnitude
also violates the bounds, and a `ValueError` can only arise for a value
whose type was accepted. -/
theorem C8_type_check_precedes_range :
    (∀ (v : PyVal) (t : TypeSpec) (mn mx : Option Int),
      isinstance v t.toList = false →
      validate [Rule.quad v t mn mx] =
        .error (.typeError
          ("Expected type ".toList ++ joinWith " or ".toList (t.toList.map typeName)))) ∧
    (∀ (r : Rule) (msg : PyStr),
      validate [r] = .error (.valueError msg) →
        isinstance r.val r.typeSpec.toList = true) := by
  constructor
  · intro v t mn mx hi
    rw [validate_singleton]
    unfold validateRule
    simp [hi, Rule.val, Rule.typeSpec]
  · intro r msg h
    by_cases hi : isinstance r.val r.typeSpec.toList
    · exact hi
    · rw [validate_singleton] at h
      unfold validateRule at h
      rw [if_pos hi] at h
      cases h

theorem C8_witness :
    validate [Rule.quad (PyVal.str "toolongvalue".toList) (TypeSpec.single PyType.intT)
        (some 0) (some 3)] =
      .error (.typeError ("Expected type int".toList)) := by
  have h := C8_type_check_precedes_range.1 (PyVal.str "toolongvalue".toList)
    (TypeSpec.single PyType.intT) (some 0) (some 3) (by decide)
  rw [h]
  rfl

/-- On success `validate_existing_directory` returns the absolutized
path. -/
theorem ved_ok_shape (fs : FS) (cwd d : PyStr) (r : PyVal)
    (h : validate_existing_directory fs cwd (.str d) = .ok r) :
    r = .str (abspathStr cwd d) := by
  rw [ved_eq] at h
  split at h
  · cases h
  · split at h
    · cases h; rfl
    · cases h

/-- Closed form of `validate_parent_exists` on a string argument: the
validator's error propagates, and otherwise the absolute path is returned
(the `None` branch is dead because the validator returns a nonempty
path). -/
theorem vpe_str (fs : FS) (cwd s : PyStr) :
    validate_parent_exists fs cwd (.str s) =
      match validate_existing_directory fs cwd
          (.str (dirname (abspathStr cwd (abspathStr cwd s)))) with
      | .error e => .error e
      | .ok _ => .ok (.str (abspathStr cwd s)) := by
  unfold validate_parent_exists
  simp only [pyAbspath]
  cases hved : validate_existing_directory fs cwd
      (.str (dirname (abspathStr cwd (abspathStr cwd s)))) with
  | error e => rfl
  | ok r =>
    have hr := ved_ok_shape fs cwd _ r hved
    subst hr
    have htr : pyTruthy (.str (abspathStr cwd
        (dirname (abspathStr cwd (abspathStr cwd s))))) = true := by
      simp [pyTruthy, abspathStr_ne_nil]
    simp [htr]

/-- C4 counterexample: with no directories present, the parent-directory
validation inside `validate_parent_exists` fails, and the function does not
return a null result — the `ValueError` raised by
`validate_existing_directory` propagates to the caller. -/
theorem C4_counterexample :
    validate_parent_exists fsEmpty "/".toList (.str "/tmp/x".toList) =
      .error (.valueError ("/tmp does not exist".toList)) ∧
    ¬ validate_parent_exists fsEmpty "/".toList (.str "/tmp/x".toList) = .ok PyVal.none := by
  constructor
  · rfl
  · intro h
    rw [show validate_parent_exists fsEmpty "/".toList (.str "/tmp/x".toList) =
      .error (.valueError ("/tmp does not exist".toList)) from rfl] at h
    cases h

/-- C4 (amended): `validate_parent_exists` resolves the absolute path and
validates the parent directory via `validate_existing_directory`; it
returns the absolute path on success, and when that validation fails the
raised error propagates to the caller — the null-returning branch is
unreachable, so the function never returns a null result. -/
theorem C4_parent_error_propagates :
    (∀ (fs : FS) (cwd s : PyStr) (r : PyVal),
      validate_parent_exists fs cwd (.str s) = .ok r → r = .str (abspathStr cwd s)) ∧
    (∀ (fs : FS) (cwd s : PyStr) (e : PyError),
      validate_existing_directory fs cwd
          (.str (dirname (abspathStr cwd (abspathStr cwd s)))) = .error e →
        validate_parent_exists fs cwd (.str s) = .error e) ∧
    (∀ (fs : FS) (cwd : PyStr) (v r : PyVal),
      validate_parent_exists fs cwd v = .ok r → r ≠ PyVal.none) := by
  have hstr : ∀ (fs : FS) (cwd s : PyStr) (r : PyVal),
      validate_parent_exists fs cwd (.str s) = .ok r → r = .str (abspathStr cwd s) := by
    intro fs cwd s r h
    rw [vpe_str] at h
    split at h
    · cases h
    · cases h; rfl
  refine ⟨hstr, ?_, ?_⟩
  · intro fs cwd s e he
    rw [vpe_str, he]
  · intro fs cwd v r h
    cases v with
    | str s =>
      rw [hstr fs cwd s r h]
      intro hc
      cases hc
    | none =>
      unfold validate_parent_exists at h
      simp only [pyAbspath] at h
      cases h
    | bool b =>
      unfold validate_parent_exists at h
      simp only [pyAbspath] at h
      cases h
    | int n =>
      unfold validate_parent_exists at h
      simp only [pyAbspath] at h
      cases h
    | list l =>
      unfold validate_parent_exists at h
      simp only [pyAbspath] at h
      cases h

theorem C4_witness :
    validate_parent_exists fsEmpty "/".toList (.str "/var/y".toList) =
      .error (.valueError ("/var does not exist".toList)) ∧
    PyVal.str (abspathStr "/".toList "/tmp/x".toList) =
      .str (abspathStr "/".toList "/tmp/x".toList) ∧
    PyVal.str (abspathStr "/".toList "/tmp/x".toList) ≠ PyVal.none := by
  refine ⟨?_, ?_, ?_⟩
  · exact C4_parent_error_propagates.2.1 fsEmpty "/".toList "/var/y".toList
      (.valueError ("/var does not exist".toList)) (by rfl)
  · exact C4_parent_error_propagates.1 fsFull "/".toList "/tmp/x".toList
      (.str (abspathStr "/".toList "/tmp/x".toList)) (by rfl)
  · exact C4_parent_error_propagates.2.2 fsFull "/".toList
      (.str "/tmp/x".toList) (.str (abspathStr "/".toList "/tmp/x".toList)) (by rfl)

/-- C7: `sanitize_path` is idempotent: whenever it returns a result,
applying it to that result returns the same result. -/
theorem C7_sanitize_path_idempotent :
    ∀ p s, sanitize_path p = .ok s → sanitize_path s = .ok s := by
  intro p s hps
  obtain ⟨hcore, hlen⟩ := (sanitize_path_ok_iff p s).mp hps
  obtain ⟨comps, hgood, hjoin⟩ := sanitizeCore_spec p
  have hs : s = joinSlash comps := by rw [← hcore, hjoin]
  subst hs
  exact (sanitize_path_ok_iff _ _).mpr ⟨sanitizeCore_joinSlash hgood, hlen⟩

theorem C7_witness : sanitize_path "etc/passwd".toList = .ok "etc/passwd".toList :=
  C7_sanitize_path_idempotent "../../etc/passwd".toList "etc/passwd".toList (by rfl)

/-- C6: `validate_existing_filepath` validates its argument is a string of
bounded length (type failures give a `TypeError`, over-long strings a
`ValueError`), then raises a `ValueError` naming the path when no file
exists there, and returns the path on success; in particular it fails with
a `ValueError` on `"/nonexistent/file.txt"` whenever that file is absent. -/
theorem C6_validate_existing_filepath :
    (∀ (fs : FS) (v : PyVal), (∀ t, v ≠ .str t) →
      ∃ m, validate_existing_filepath fs v = .error (.typeError m)) ∧
    (∀ (fs : FS) (s : PyStr), 255 ≤ s.length →
      ∃ m, validate_existing_filepath fs (.str s) = .error (.valueError m)) ∧
    (∀ (fs : FS) (s : PyStr), s.length < 255 →
      (fs.isfile s = false →
        validate_existing_filepath fs (.str s) =
          .error (.valueError (s ++ " does not exist.".toList))) ∧
      (fs.isfile s = true →
        validate_existing_filepath fs (.str s) = .ok (.str s))) ∧
    (∀ fs : FS, fs.isfile "/nonexistent/file.txt".toList = false →
      validate_existing_filepath fs (.str "/nonexistent/file.txt".toList) =
        .error (.valueError ("/nonexistent/file.txt does not exist.".toList))) := by
  have hstr : ∀ (fs : FS) (s : PyStr), s.length < 255 →
      (fs.isfile s = false →
        validate_existing_filepath fs (.str s) =
          .error (.valueError (s ++ " does not exist.".toList))) ∧
      (fs.isfile s = true →
        validate_existing_filepath fs (.str s) = .ok (.str s)) := by
    intro fs s hlen
    have hle : ¬ (((s.length : Nat) : Int) ≥ 255) := by
      simp only [ge_iff_le, not_le]
      exact_mod_cast hlen
    constructor
    · intro hf
      rw [vef_eq, if_neg hle, if_neg (by simp [hf])]
    · intro hf
      rw [vef_eq, if_neg hle, if_pos (by simp [hf])]
  refine ⟨?_, ?_, hstr, ?_⟩
  · intro fs v hv
    exact ⟨_, vef_non_str fs hv⟩
  · intro fs s hlen
    refine ⟨"Length  must be less than 255".toList, ?_⟩
    rw [vef_eq, if_pos (by exact_mod_cast hlen)]
  · intro fs hf
    exact (hstr fs "/nonexistent/file.txt".toList (by simp)).1 hf

theorem C6_witness :
    (∃ m, validate_existing_filepath (FS.mk (fun _ => false) (fun _ => false)) (PyVal.int 3) =
      .error (.typeError m)) ∧
    validate_existing_filepath (FS.mk (fun _ => false) (fun _ => false))
        (.str "/nonexistent/file.txt".toList) =
      .error (.valueError ("/nonexistent/file.txt does not exist.".toList)) := by
  constructor
  · exact C6_validate_existing_filepath.1 (FS.mk (fun _ => false) (fun _ => false)) (PyVal.int 3)
      (fun t h => PyVal.noConfusion h)
  · exact C6_validate_existing_filepath.2.2.2 (FS.mk (fun _ => false) (fun _ => false)) (by rfl)

/-- C9: on success `validate_existing_filepath` returns its argument
unchanged, whereas `validate_existing_directory` absolutizes first: its
success value is the absolutized path, and its 0–255 length check applies
to the absolutized path, not to the argument as given. -/
theorem C9_filepath_vs_directory :
    (∀ (fs : FS) (v r : PyVal), validate_existing_filepath fs v = .ok r → r = v) ∧
    (∀ (fs : FS) (cwd : PyStr) (v r : PyVal),
      validate_existing_directory fs cwd v = .ok r →
        ∃ s, v = .str s ∧ r = .str (abspathStr cwd s)) ∧
    (∀ (fs : FS) (cwd s : PyStr), 255 ≤ (abspathStr cwd s).length →
      validate_existing_directory fs cwd (.str s) =
        .error (.valueError ("Length  must be less than 255".toList))) ∧
    (∀ (fs : FS) (cwd s : PyStr), (abspathStr cwd s).length < 255 →
      validate_existing_directory fs cwd (.str s) =
        if fs.isdir (abspathStr cwd s) then .ok (.str (abspathStr cwd s))
        else .error (.valueError (abspathStr cwd s ++ " does not exist".toList))) := by
  refine ⟨?_, ?_, ?_, ?_⟩
  · intro fs v r h
    cases v with
    | str s =>
      rw [vef_eq] at h
      split at h
      · cases h
      · split at h
        · cases h; rfl
        · cases h
    | none => rw [vef_non_str fs (fun t h' => by cases h')] at h; cases h
    | bool b => rw [vef_non_str fs (fun t h' => by cases h')] at h; cases h
    | int n => rw [vef_non_str fs (fun t h' => by cases h')] at h; cases h
    | list l => rw [vef_non_str fs (fun t h' => by cases h')] at h; cases h
  · intro fs cwd v r h
    cases v with
    | str s =>
      refine ⟨s, rfl, ?_⟩
      rw [ved_eq] at h
      split at h
      · cases h
      · split at h
        · cases h; rfl
        · cases h
    | none => cases h
    | bool b => cases h
    | int n => cases h
    | list l => cases h
  · intro fs cwd s hlen
    rw [ved_eq, if_pos (by exact_mod_cast hlen)]
  · intro fs cwd s hlen
    have hle : ¬ ((((abspathStr cwd s).length : Nat) : Int) ≥ 255) := by
      simp only [ge_iff_le, not_le]
      exact_mod_cast hlen
    rw [ved_eq, if_neg hle]

theorem C9_witness :
    (PyVal.str "rel/f.txt".toList = PyVal.str "rel/f.txt".toList) ∧
    (∃ s, (PyVal.str "rel/d".toList : PyVal) = .str s ∧
      PyVal.str (abspathStr "/home/u".toList "rel/d".toList) =
        .str (abspathStr "/home/u".toList s)) ∧
    validate_existing_directory (FS.mk (fun _ => true) (fun _ => true)) "/home/u".toList
        (.str "rel/d".toList) =
      if (FS.mk (fun _ => true) (fun _ => true)).isdir (abspathStr "/home/u".toList "rel/d".toList)
      then .ok (.str (abspathStr "/home/u".toList "rel/d".toList))
      else .error (.valueError
        (abspathStr "/home/u".toList "rel/d".toList ++ " does not exist".toList)) := by
  refine ⟨?_, ?_, ?_⟩
  · exact C9_filepath_vs_directory.1 (FS.mk (fun _ => true) (fun _ => true))
      (.str "rel/f.txt".toList) (.str "rel/f.txt".toList) (by rfl)
  · exact C9_filepath_vs_directory.2.1 (FS.mk (fun _ => true) (fun _ => true))
      "/home/u".toList (.str "rel/d".toList)
      (.str (abspathStr "/home/u".toList "rel/d".toList)) (by rfl)
  · exact C9_filepath_vs_directory.2.2.2 (FS.mk (fun _ => true) (fun _ => true))
      "/home/u".toList "rel/d".toList (by decide)

/-- C5: `validate_proxy_path` succeeds and returns its argument when the
argument is null or matches the fixed http/https/ftp/ftps URL pattern
(domain name, `localhost`, or dotted IPv4, optional port and path); every
non-null non-matching argument raises a `ValueError`; in particular
`"http://localhost:8080/path"` succeeds, `"not-a-url"` fails, and `None`
succeeds returning `None`. -/
theorem C5_validate_proxy_path :
    (validate_proxy_path Option.none = .ok Option.none) ∧
    (∀ s, proxyMatch s = true → validate_proxy_path (some s) = .ok (some s)) ∧
    (∀ s, proxyMatch s = false →
      validate_proxy_path (some s) =
        .error (.valueError (s ++ " is not a valid proxy path".toList))) ∧
    (validate_proxy_path (some "http://localhost:8080/path".toList) =
      .ok (some "http://localhost:8080/path".toList)) ∧
    (validate_proxy_path (some "not-a-url".toList) =
      .error (.valueError ("not-a-url is not a valid proxy path".toList))) := by
  refine ⟨rfl, ?_, ?_, by rfl, by rfl⟩
  · intro s h
    simp [validate_proxy_path, h]
  · intro s h
    simp [validate_proxy_path, h]

theorem C5_witness :
    validate_proxy_path (some "https://example.com".toList) =
      .ok (some "https://example.com".toList) :=
  C5_validate_proxy_path.2.1 "https://example.com".toList (by rfl)

/-- C10: `validate_proxy_path` acts as the identity whenever it does not
raise: every successful result is exactly the argument given. -/
theorem C10_proxy_identity :
    ∀ (a r : Option PyStr), validate_proxy_path a = .ok r → r = a := by
  intro a r h
  cases a with
  | none => cases h; rfl
  | some s =>
    simp only [validate_proxy_path] at h
    split at h
    · cases h; rfl
    · cases h

theorem C10_witness :
    (some "http://localhost".toList : Option PyStr) = some "http://localhost".toList :=
  C10_proxy_identity (some "http://localhost".toList) (some "http://localhost".toList) (by rfl)

end NlpIo
